import Mathlib

/-!
# Verification of the `declare_machine!` state-machine engine (src/src/lib.rs)

The repository generates, for each declared machine, an engine with:

* `enum States` — one variant per declared state (each carrying that state's
  context struct) plus the sentinel `__SameState__` (lib.rs 364-371);
* per-state `do_job`, `enter`, `leave` (the `@cmd_processor` and
  `@inner >>` / `@inner <<` arms, lib.rs 243-293);
* `struct Machine { state, context }` with `new`, `execute`, `change_state`,
  `state()` and `get_inner_context()` (lib.rs 382-425).

This file embeds that generated code shallowly.  A machine definition is
parameterized by a closed tag type `Tag` (the declared state names), a
dependent family `Ctx : Tag → Type` (each state's context struct), a command
type `Cmd` and the machine-wide context type `Glob` (`MachineContext`).
Mutation through `&mut` references is rendered as explicit state passing;
`.unwrap()` on a hook's `Result<(), ()>` is rendered by an `Option` layer
(`none` = panic).  To settle ordering claims, every run assembles the list of
callback / leave-hook / enter-hook invocations that the generated code
performs, in order.
-/

/-- Mirror of the Rust `Result<(), ()>` returned by hooks and by `execute`. -/
inductive RRes where
  | ok : RRes
  | err : RRes
deriving DecidableEq

/-- One observable invocation performed by the generated code: a command
callback, a leave hook of a state, or an enter hook of a state. -/
inductive Event (Tag Cmd : Type) where
  | callback : Tag → Cmd → Event Tag Cmd
  | leave : Tag → Event Tag Cmd
  | enter : Tag → Event Tag Cmd
deriving DecidableEq

/-- The four shapes of a command-reaction clause, one per `@inner command`
arm of the source (lib.rs 174-204): callback with target, callback without
target, target without callback, and the bare `cmd =>;` clause. A target
builds the next `States` variant from the (current context, machine context)
pair, exactly like `States::$new_state{context: ...}` with its initializer
expressions. -/
inductive Reaction (C G S : Type) where
  | cbTarget : (C → G → C × G) → (C → G → S) → Reaction C G S
  | cbStay : (C → G → C × G) → Reaction C G S
  | target : (C → G → S) → Reaction C G S
  | stay : Reaction C G S

/-- The per-state data of the generated `impl CanDoJob for $state`
(lib.rs 295-331): the enter hook, the leave hook, and the command table.
Hooks mutate the state context and the machine context and return a
`Result<(), ()>` (third component).  `react cmd = none` is the `_ => None`
arm of `do_job` (lib.rs 290): the command has no handler in this state. -/
structure StateNode (Tag Cmd Glob : Type) (Ctx : Tag → Type) (t : Tag) where
  enter : Ctx t → Glob → Ctx t × Glob × RRes
  leave : Ctx t → Glob → Ctx t × Glob × RRes
  react : Cmd → Option (Reaction (Ctx t) Glob (Sigma Ctx))

/-- A whole machine definition: one `StateNode` per declared state. -/
structure MachineDef (Tag Cmd Glob : Type) (Ctx : Tag → Type) where
  node : (t : Tag) → StateNode Tag Cmd Glob Ctx t

/-- The generated `enum States` (lib.rs 364-371): the sentinel
`__SameState__` plus one variant per declared state carrying its context. -/
inductive States (Tag : Type) (Ctx : Tag → Type) where
  | sameState : States Tag Ctx
  | st : Sigma Ctx → States Tag Ctx

/-- The generated `struct Machine` (lib.rs 382-385): the current state (a
`States` value) and the machine-wide context. -/
structure Machine (Tag Glob : Type) (Ctx : Tag → Type) where
  state : States Tag Ctx
  context : Glob

variable {Tag Cmd Glob : Type} {Ctx : Tag → Type}

/-- The wrapper the `@inner >>` / `@inner <<` arms put around a user hook
body (lib.rs 243-266): run the body, then return `Ok(())`. -/
def mkHook {C G : Type} (body : C → G → C × G) : C → G → C × G × RRes :=
  fun c g => ((body c g).1, (body c g).2, RRes.ok)

/-- A hook body that only performs I/O (e.g. `println!`) leaves both
contexts unchanged; this is also the body of the hook generated when the
declaration has no `>>` / `<<` block (lib.rs 257-266). -/
def idBody {C G : Type} : C → G → C × G := fun c g => (c, g)

/-- The generated `do_job` (lib.rs 286-293) for the state `t`, on explicit
contexts.  Outer `none` models a panic of the `.unwrap()` on the leave hook
(lib.rs 178, 196); the inner `Option (States Tag Ctx)` is `do_job`'s own
Rust return value (`None` = no handler, `Some(__SameState__)` or
`Some(next-state)` otherwise).  The returned list records the callback and
leave-hook invocations in the order the generated code performs them. -/
def do_job (M : MachineDef Tag Cmd Glob Ctx) (t : Tag) (ctx : Ctx t) (cmd : Cmd)
    (glob : Glob) :
    Option (Ctx t × Glob × Option (States Tag Ctx) × List (Event Tag Cmd)) :=
  match (M.node t).react cmd with
  | none => some (ctx, glob, none, [])
  | some (Reaction.cbTarget cb next) =>
      match cb ctx glob with
      | (c1, g1) =>
          match (M.node t).leave c1 g1 with
          | (c2, g2, RRes.ok) =>
              some (c2, g2, some (States.st (next c2 g2)),
                [Event.callback t cmd, Event.leave t])
          | (_, _, RRes.err) => none
  | some (Reaction.cbStay cb) =>
      match cb ctx glob with
      | (c1, g1) => some (c1, g1, some States.sameState, [Event.callback t cmd])
  | some (Reaction.target next) =>
      match (M.node t).leave ctx glob with
      | (c2, g2, RRes.ok) =>
          some (c2, g2, some (States.st (next c2 g2)), [Event.leave t])
      | (_, _, RRes.err) => none
  | some Reaction.stay => some (ctx, glob, some States.sameState, [])

/-- `Machine::change_state` (lib.rs 412-418): store the new state first,
then run the new state's enter hook on the stored contexts; `.unwrap()` of
the enter result is the outer `Option`. -/
def change_state (M : MachineDef Tag Cmd Glob Ctx) (m : Machine Tag Glob Ctx)
    (new_state : States Tag Ctx) :
    Option (Machine Tag Glob Ctx × List (Event Tag Cmd)) :=
  match new_state with
  | States.sameState =>
      some ({ state := States.sameState, context := m.context }, [])
  | States.st s =>
      match (M.node s.1).enter s.2 m.context with
      | (c', g', RRes.ok) =>
          some ({ state := States.st ⟨s.1, c'⟩, context := g' }, [Event.enter s.1])
      | (_, _, RRes.err) => none

/-- `Machine::execute` (lib.rs 394-411): dispatch `do_job` on the current
state (its `&mut` context is the stored one, so `do_job`'s context updates
land in the machine), then on `Some(__SameState__)` do nothing, on a new
state call `change_state`, and on `None` report the invalid command as
`Err(())`.  Outer `none` models a hook panic. -/
def execute (M : MachineDef Tag Cmd Glob Ctx) (m : Machine Tag Glob Ctx)
    (cmd : Cmd) :
    Option (Machine Tag Glob Ctx × RRes × List (Event Tag Cmd)) :=
  match m.state with
  | States.sameState => some (m, RRes.err, [])
  | States.st s =>
      match do_job M s.1 s.2 cmd m.context with
      | none => none
      | some (c', g', none, ev) =>
          some ({ state := States.st ⟨s.1, c'⟩, context := g' }, RRes.err, ev)
      | some (c', g', some States.sameState, ev) =>
          some ({ state := States.st ⟨s.1, c'⟩, context := g' }, RRes.ok, ev)
      | some (c', g', some (States.st s2), ev) =>
          match change_state M { state := States.st ⟨s.1, c'⟩, context := g' }
              (States.st s2) with
          | none => none
          | some (m2, ev2) => some (m2, RRes.ok, ev ++ ev2)

/-- The generated `new` (lib.rs 386-391): build the initial state context
and the machine context, run the initial state's enter hook (`.unwrap()` =
outer `Option`), and store both results in the machine. -/
def new (M : MachineDef Tag Cmd Glob Ctx) (t0 : Tag) (c0 : Ctx t0) (g0 : Glob) :
    Option (Machine Tag Glob Ctx × List (Event Tag Cmd)) :=
  match (M.node t0).enter c0 g0 with
  | (c1, g1, RRes.ok) =>
      some ({ state := States.st ⟨t0, c1⟩, context := g1 }, [Event.enter t0])
  | (_, _, RRes.err) => none

/-- `Machine::state` (lib.rs 419-421): returns a clone of the stored
`States` value; on values a clone is the value itself. -/
def stateOf (m : Machine Tag Glob Ctx) : States Tag Ctx := m.state

/-- `Machine::get_inner_context` (lib.rs 422-424): returns
`self.context.clone()`, an owned copy of the machine-wide context. -/
def get_inner_context (m : Machine Tag Glob Ctx) : Glob := m.context

/-- Run a list of commands in order, as a caller holding `&mut machine`
would; an `Err(())` from `execute` leaves the machine usable and the run
continues, a hook panic (`none`) aborts. -/
def execSeq (M : MachineDef Tag Cmd Glob Ctx) (m : Machine Tag Glob Ctx) :
    List Cmd → Option (Machine Tag Glob Ctx)
  | [] => some m
  | cmd :: rest =>
      match execute M m cmd with
      | none => none
      | some (m', _, _) => execSeq M m' rest

/-- Run a list of commands, requiring every `execute` to return `Ok(())`
(the tests call `.unwrap()` on each result, lib.rs 478-488). -/
def runOk (M : MachineDef Tag Cmd Glob Ctx) (m : Machine Tag Glob Ctx) :
    List Cmd → Option (Machine Tag Glob Ctx)
  | [] => some m
  | cmd :: rest =>
      match execute M m cmd with
      | some (m', RRes.ok, _) => runOk M m' rest
      | some (_, RRes.err, _) => none
      | none => none

/-- Two independently constructed machine instances side by side, stepped
one at a time (as in test3 / test4, lib.rs 523-531): `pick = true` executes
the command on the first instance, `pick = false` on the second.  Each
instance owns its own `state` and `context` fields (lib.rs 382-391), which
the pair models as disjoint components. -/
def stepPair (M : MachineDef Tag Cmd Glob Ctx)
    (w : Machine Tag Glob Ctx × Machine Tag Glob Ctx) (pick : Bool) (cmd : Cmd) :
    Option (Machine Tag Glob Ctx × Machine Tag Glob Ctx) :=
  match pick with
  | true =>
      match execute M w.1 cmd with
      | none => none
      | some (m', _, _) => some (m', w.2)
  | false =>
      match execute M w.2 cmd with
      | none => none
      | some (m', _, _) => some (w.1, m')

/-- Run an interleaving script over a pair of instances. -/
def runPair (M : MachineDef Tag Cmd Glob Ctx)
    (w : Machine Tag Glob Ctx × Machine Tag Glob Ctx) :
    List (Bool × Cmd) → Option (Machine Tag Glob Ctx × Machine Tag Glob Ctx)
  | [] => some w
  | step :: rest =>
      match stepPair M w step.1 step.2 with
      | none => none
      | some w' => runPair M w' rest

/-- Every hook of the definition was produced by the generator's
`@inner >>` / `@inner <<` arms, i.e. is `mkHook` of some body (the arms
always end in `Ok(())`, lib.rs 243-266). -/
def MachineDef.generatedHooks (M : MachineDef Tag Cmd Glob Ctx) : Prop :=
  ∀ t : Tag, (∃ b, (M.node t).enter = mkHook b) ∧ (∃ b, (M.node t).leave = mkHook b)

/-! ## Characterizations of the dispatch paths -/

theorem do_job_none {M : MachineDef Tag Cmd Glob Ctx} {t : Tag} {ctx : Ctx t}
    {cmd : Cmd} {glob : Glob} (hre : (M.node t).react cmd = none) :
    do_job M t ctx cmd glob = some (ctx, glob, none, []) := by
  unfold do_job
  rw [hre]

theorem do_job_cbTarget {M : MachineDef Tag Cmd Glob Ctx} {t : Tag} {ctx : Ctx t}
    {cmd : Cmd} {glob : Glob} {cb : Ctx t → Glob → Ctx t × Glob}
    {next : Ctx t → Glob → Sigma Ctx} {c1 c2 : Ctx t} {g1 g2 : Glob}
    (hre : (M.node t).react cmd = some (Reaction.cbTarget cb next))
    (hcb : cb ctx glob = (c1, g1))
    (hlv : (M.node t).leave c1 g1 = (c2, g2, RRes.ok)) :
    do_job M t ctx cmd glob =
      some (c2, g2, some (States.st (next c2 g2)),
        [Event.callback t cmd, Event.leave t]) := by
  simp only [do_job, hre, hcb, hlv]

theorem do_job_cbStay {M : MachineDef Tag Cmd Glob Ctx} {t : Tag} {ctx : Ctx t}
    {cmd : Cmd} {glob : Glob} {cb : Ctx t → Glob → Ctx t × Glob}
    {c1 : Ctx t} {g1 : Glob}
    (hre : (M.node t).react cmd = some (Reaction.cbStay cb))
    (hcb : cb ctx glob = (c1, g1)) :
    do_job M t ctx cmd glob =
      some (c1, g1, some States.sameState, [Event.callback t cmd]) := by
  simp only [do_job, hre, hcb]

theorem do_job_target {M : MachineDef Tag Cmd Glob Ctx} {t : Tag} {ctx : Ctx t}
    {cmd : Cmd} {glob : Glob} {next : Ctx t → Glob → Sigma Ctx}
    {c2 : Ctx t} {g2 : Glob}
    (hre : (M.node t).react cmd = some (Reaction.target next))
    (hlv : (M.node t).leave ctx glob = (c2, g2, RRes.ok)) :
    do_job M t ctx cmd glob =
      some (c2, g2, some (States.st (next c2 g2)), [Event.leave t]) := by
  unfold do_job
  rw [hre, hlv]

theorem do_job_stay {M : MachineDef Tag Cmd Glob Ctx} {t : Tag} {ctx : Ctx t}
    {cmd : Cmd} {glob : Glob}
    (hre : (M.node t).react cmd = some Reaction.stay) :
    do_job M t ctx cmd glob = some (ctx, glob, some States.sameState, []) := by
  unfold do_job
  rw [hre]

theorem change_state_st {M : MachineDef Tag Cmd Glob Ctx}
    {st0 : States Tag Ctx} {g : Glob} {s : Sigma Ctx} {c4 : Ctx s.1} {g3 : Glob}
    (henter : (M.node s.1).enter s.2 g = (c4, g3, RRes.ok)) :
    change_state M { state := st0, context := g } (States.st s) =
      some ({ state := States.st ⟨s.1, c4⟩, context := g3 },
        ([Event.enter s.1] : List (Event Tag Cmd))) := by
  simp only [change_state, henter]

theorem execute_invalid {M : MachineDef Tag Cmd Glob Ctx}
    {m : Machine Tag Glob Ctx} {cmd : Cmd} {t : Tag} {c : Ctx t}
    (hstate : m.state = States.st ⟨t, c⟩)
    (hre : (M.node t).react cmd = none) :
    execute M m cmd = some (m, RRes.err, []) := by
  obtain ⟨st0, g0⟩ := m
  simp only at hstate
  subst hstate
  simp only [execute, do_job_none hre]

theorem execute_cbTarget {M : MachineDef Tag Cmd Glob Ctx}
    {m : Machine Tag Glob Ctx} {cmd : Cmd} {t : Tag} {c : Ctx t}
    {cb : Ctx t → Glob → Ctx t × Glob} {next : Ctx t → Glob → Sigma Ctx}
    {c1 c2 : Ctx t} {g1 g2 : Glob} {s2 : Sigma Ctx} {c4 : Ctx s2.1} {g3 : Glob}
    (hstate : m.state = States.st ⟨t, c⟩)
    (hre : (M.node t).react cmd = some (Reaction.cbTarget cb next))
    (hcb : cb c m.context = (c1, g1))
    (hlv : (M.node t).leave c1 g1 = (c2, g2, RRes.ok))
    (hnext : next c2 g2 = s2)
    (henter : (M.node s2.1).enter s2.2 g2 = (c4, g3, RRes.ok)) :
    execute M m cmd =
      some ({ state := States.st ⟨s2.1, c4⟩, context := g3 }, RRes.ok,
        [Event.callback t cmd, Event.leave t, Event.enter s2.1]) := by
  obtain ⟨st0, g0⟩ := m
  simp only at hstate hcb
  subst hstate
  simp only [execute, do_job_cbTarget hre hcb hlv, hnext, change_state_st henter,
    List.cons_append, List.nil_append]

theorem execute_target {M : MachineDef Tag Cmd Glob Ctx}
    {m : Machine Tag Glob Ctx} {cmd : Cmd} {t : Tag} {c : Ctx t}
    {next : Ctx t → Glob → Sigma Ctx}
    {c2 : Ctx t} {g2 : Glob} {s2 : Sigma Ctx} {c4 : Ctx s2.1} {g3 : Glob}
    (hstate : m.state = States.st ⟨t, c⟩)
    (hre : (M.node t).react cmd = some (Reaction.target next))
    (hlv : (M.node t).leave c m.context = (c2, g2, RRes.ok))
    (hnext : next c2 g2 = s2)
    (henter : (M.node s2.1).enter s2.2 g2 = (c4, g3, RRes.ok)) :
    execute M m cmd =
      some ({ state := States.st ⟨s2.1, c4⟩, context := g3 }, RRes.ok,
        [Event.leave t, Event.enter s2.1]) := by
  obtain ⟨st0, g0⟩ := m
  simp only at hstate hlv
  subst hstate
  simp only [execute, do_job_target hre hlv, hnext, change_state_st henter,
    List.cons_append, List.nil_append]

theorem execute_cbStay {M : MachineDef Tag Cmd Glob Ctx}
    {m : Machine Tag Glob Ctx} {cmd : Cmd} {t : Tag} {c : Ctx t}
    {cb : Ctx t → Glob → Ctx t × Glob} {c1 : Ctx t} {g1 : Glob}
    (hstate : m.state = States.st ⟨t, c⟩)
    (hre : (M.node t).react cmd = some (Reaction.cbStay cb))
    (hcb : cb c m.context = (c1, g1)) :
    execute M m cmd =
      some ({ state := States.st ⟨t, c1⟩, context := g1 }, RRes.ok,
        [Event.callback t cmd]) := by
  obtain ⟨st0, g0⟩ := m
  simp only at hstate hcb
  subst hstate
  simp only [execute, do_job_cbStay hre hcb]

theorem execute_stay {M : MachineDef Tag Cmd Glob Ctx}
    {m : Machine Tag Glob Ctx} {cmd : Cmd} {t : Tag} {c : Ctx t}
    (hstate : m.state = States.st ⟨t, c⟩)
    (hre : (M.node t).react cmd = some Reaction.stay) :
    execute M m cmd = some (m, RRes.ok, []) := by
  obtain ⟨st0, g0⟩ := m
  simp only at hstate
  subst hstate
  simp only [execute, do_job_stay hre]

/-! ## Shape lemmas: the stored state is always a real state variant -/

theorem change_state_shape {M : MachineDef Tag Cmd Glob Ctx}
    {m mr : Machine Tag Glob Ctx} {s : Sigma Ctx} {ev : List (Event Tag Cmd)}
    (h : change_state M m (States.st s) = some (mr, ev)) :
    ∃ s2, mr.state = States.st s2 := by
  simp only [change_state] at h
  split at h
  · simp only [Option.some.injEq, Prod.mk.injEq] at h
    obtain ⟨h1, -⟩ := h
    subst h1
    exact ⟨_, rfl⟩
  · exact absurd h (by simp)

theorem new_st_shape {M : MachineDef Tag Cmd Glob Ctx} {t0 : Tag} {c0 : Ctx t0}
    {g0 : Glob} {m0 : Machine Tag Glob Ctx} {ev0 : List (Event Tag Cmd)}
    (h : new M t0 c0 g0 = some (m0, ev0)) :
    ∃ s, m0.state = States.st s := by
  unfold new at h
  split at h
  · simp only [Option.some.injEq, Prod.mk.injEq] at h
    obtain ⟨h1, -⟩ := h
    subst h1
    exact ⟨_, rfl⟩
  · exact absurd h (by simp)

theorem execute_st_shape {M : MachineDef Tag Cmd Glob Ctx}
    {m m' : Machine Tag Glob Ctx} {cmd : Cmd} {r : RRes}
    {ev : List (Event Tag Cmd)} {s : Sigma Ctx}
    (hs : m.state = States.st s)
    (hex : execute M m cmd = some (m', r, ev)) :
    ∃ s2, m'.state = States.st s2 := by
  obtain ⟨st0, g0⟩ := m
  simp only at hs
  subst hs
  simp only [execute] at hex
  rcases h1 : do_job M s.1 s.2 cmd g0 with - | ⟨c', g', res, ev0⟩
  · simp only [h1] at hex
    exact Option.noConfusion hex
  · simp only [h1] at hex
    rcases res with - | res2
    · simp only [Option.some.injEq, Prod.mk.injEq] at hex
      obtain ⟨h2, -⟩ := hex
      subst h2
      exact ⟨_, rfl⟩
    · rcases res2 with - | s2
      · simp only [Option.some.injEq, Prod.mk.injEq] at hex
        obtain ⟨h2, -⟩ := hex
        subst h2
        exact ⟨_, rfl⟩
      · rcases hcs : change_state M
            { state := States.st ⟨s.1, c'⟩, context := g' } (States.st s2) with
          - | ⟨mr, ev2⟩
        · simp only [hcs] at hex
          exact Option.noConfusion hex
        · simp only [hcs, Option.some.injEq, Prod.mk.injEq] at hex
          obtain ⟨h2, -⟩ := hex
          subst h2
          exact change_state_shape hcs

theorem execSeq_st_shape {M : MachineDef Tag Cmd Glob Ctx}
    {m mF : Machine Tag Glob Ctx} {cmds : List Cmd} {s : Sigma Ctx}
    (hs : m.state = States.st s) (hrun : execSeq M m cmds = some mF) :
    ∃ s2, mF.state = States.st s2 := by
  induction cmds generalizing m s with
  | nil =>
      simp only [execSeq, Option.some.injEq] at hrun
      subst hrun
      exact ⟨s, hs⟩
  | cons c rest ih =>
      simp only [execSeq] at hrun
      rcases h1 : execute M m c with - | ⟨m1, r1, ev1⟩
      · rw [h1] at hrun
        exact absurd hrun (by simp)
      · rw [h1] at hrun
        obtain ⟨s1, hs1⟩ := execute_st_shape hs h1
        exact ih hs1 hrun

/-! ## Pair runs touching only the first instance leave the second alone -/

theorem stepPair_fst {M : MachineDef Tag Cmd Glob Ctx}
    {w w1 : Machine Tag Glob Ctx × Machine Tag Glob Ctx} {cmd : Cmd}
    (h : stepPair M w true cmd = some w1) : w1.2 = w.2 := by
  unfold stepPair at h
  rcases h1 : execute M w.1 cmd with - | ⟨m', r, ev⟩
  · rw [h1] at h
    exact absurd h (by simp)
  · rw [h1] at h
    simp only [Option.some.injEq] at h
    subst h
    rfl

theorem runPair_fst_only {M : MachineDef Tag Cmd Glob Ctx}
    {w w' : Machine Tag Glob Ctx × Machine Tag Glob Ctx}
    {script : List (Bool × Cmd)}
    (hall : ∀ p ∈ script, p.1 = true)
    (hrun : runPair M w script = some w') : w'.2 = w.2 := by
  induction script generalizing w with
  | nil =>
      simp only [runPair, Option.some.injEq] at hrun
      subst hrun
      rfl
  | cons p rest ih =>
      have hp : p.1 = true := hall p (by simp)
      simp only [runPair] at hrun
      rcases hsp : stepPair M w p.1 p.2 with - | w1
      · rw [hsp] at hrun
        exact absurd hrun (by simp)
      · rw [hsp] at hrun
        rw [hp] at hsp
        have h2 : w1.2 = w.2 := stepPair_fst hsp
        have h3 : w'.2 = w1.2 := ih (fun q hq => hall q (List.mem_cons_of_mem p hq)) hrun
        rw [h3, h2]

/-! ## Concrete machine `Mach1` (lib.rs 436-459)

States `New{x:i16}`, `InConfig{x:i16; y:i16}`, `Operational{}`; commands
`Configure`, `ConfigureDone`, `Drop`; initial state `New{x:0}`; no machine
context (the generated `MachineContext` is an empty struct).  All hooks only
`println!`, so their bodies leave the contexts unchanged.  The `i16` values
are modeled as unbounded integers; every scenario below keeps them far from
the `i16` bounds, so no overflow behavior is involved. -/

inductive M1Tag where
  | New : M1Tag
  | InConfig : M1Tag
  | Operational : M1Tag
deriving DecidableEq

inductive M1Cmd where
  | Configure : M1Cmd
  | ConfigureDone : M1Cmd
  | Drop : M1Cmd
deriving DecidableEq

structure M1New where
  x : Int
deriving DecidableEq

structure M1InConfig where
  x : Int
  y : Int
deriving DecidableEq

structure M1Operational where
deriving DecidableEq

structure M1Glob where
deriving DecidableEq

def M1Ctx : M1Tag → Type
  | M1Tag.New => M1New
  | M1Tag.InConfig => M1InConfig
  | M1Tag.Operational => M1Operational

def mach1Node : (t : M1Tag) → StateNode M1Tag M1Cmd M1Glob M1Ctx t
  | M1Tag.New =>
    { enter := mkHook idBody
      leave := mkHook idBody
      react := fun cmd =>
        match cmd with
        | M1Cmd.Configure =>
            some (Reaction.cbTarget idBody
              (fun c _ =>
                (⟨M1Tag.InConfig, M1InConfig.mk (c.x + 1) 0⟩ : Sigma M1Ctx)))
        | M1Cmd.ConfigureDone =>
            some (Reaction.target
              (fun _ _ => (⟨M1Tag.New, M1New.mk 0⟩ : Sigma M1Ctx)))
        | M1Cmd.Drop => none }
  | M1Tag.InConfig =>
    { enter := mkHook idBody
      leave := mkHook idBody
      react := fun cmd =>
        match cmd with
        | M1Cmd.ConfigureDone =>
            some (Reaction.cbTarget idBody
              (fun _ _ => (⟨M1Tag.Operational, M1Operational.mk⟩ : Sigma M1Ctx)))
        | _ => none }
  | M1Tag.Operational =>
    { enter := mkHook idBody
      leave := mkHook idBody
      react := fun cmd =>
        match cmd with
        | M1Cmd.ConfigureDone => some Reaction.stay
        | M1Cmd.Drop =>
            some (Reaction.target
              (fun _ _ => (⟨M1Tag.New, M1New.mk 0⟩ : Sigma M1Ctx)))
        | M1Cmd.Configure => none }

def mach1Def : MachineDef M1Tag M1Cmd M1Glob M1Ctx := { node := mach1Node }

/-- The machine `Mach1::new()` returns (enter of `New` only prints). -/
def mach1Start : Machine M1Tag M1Glob M1Ctx :=
  { state := States.st ⟨M1Tag.New, M1New.mk 0⟩, context := M1Glob.mk }

/-- `Mach1` sitting in `Operational{}`. -/
def mach1Oper : Machine M1Tag M1Glob M1Ctx :=
  { state := States.st ⟨M1Tag.Operational, M1Operational.mk⟩, context := M1Glob.mk }

/-- The command sequence of Scenario A / `test1` (lib.rs 478-488). -/
def scenarioA : List M1Cmd :=
  [M1Cmd.Configure, M1Cmd.ConfigureDone, M1Cmd.Drop, M1Cmd.Configure,
   M1Cmd.ConfigureDone, M1Cmd.ConfigureDone, M1Cmd.ConfigureDone]

/-! ## Concrete machine `Mach3` (lib.rs 500-521)

Machine context `glob_cont{id:i16}`; states `State1`/`State2`/`State3`, each
with context `cont{counter:i16}`; initial state `State1{counter:0}`.  Leave
hooks increment the counter (and print); enter hooks only print. -/

inductive M3Tag where
  | State1 : M3Tag
  | State2 : M3Tag
  | State3 : M3Tag
deriving DecidableEq

inductive M3Cmd where
  | ToState1 : M3Cmd
  | ToState2 : M3Cmd
  | ToState3 : M3Cmd
deriving DecidableEq

structure M3Cont where
  counter : Int
deriving DecidableEq

structure M3Glob where
  id : Int
deriving DecidableEq

def M3Ctx : M3Tag → Type := fun _ => M3Cont

/-- The `<<` body shared by all three states: `cont.counter += 1` (the
`println!` has no effect on either context). -/
def m3LeaveBody : M3Cont → M3Glob → M3Cont × M3Glob :=
  fun c g => (M3Cont.mk (c.counter + 1), g)

def mach3Node : (t : M3Tag) → StateNode M3Tag M3Cmd M3Glob M3Ctx t
  | M3Tag.State1 =>
    { enter := mkHook idBody
      leave := mkHook m3LeaveBody
      react := fun cmd =>
        match cmd with
        | M3Cmd.ToState2 =>
            some (Reaction.target
              (fun c _ => (⟨M3Tag.State2, M3Cont.mk c.counter⟩ : Sigma M3Ctx)))
        | _ => none }
  | M3Tag.State2 =>
    { enter := mkHook idBody
      leave := mkHook m3LeaveBody
      react := fun cmd =>
        match cmd with
        | M3Cmd.ToState3 =>
            some (Reaction.target
              (fun c _ => (⟨M3Tag.State3, M3Cont.mk c.counter⟩ : Sigma M3Ctx)))
        | _ => none }
  | M3Tag.State3 =>
    { enter := mkHook idBody
      leave := mkHook m3LeaveBody
      react := fun cmd =>
        match cmd with
        | M3Cmd.ToState1 =>
            some (Reaction.target
              (fun c _ => (⟨M3Tag.State1, M3Cont.mk c.counter⟩ : Sigma M3Ctx)))
        | _ => none }

def mach3Def : MachineDef M3Tag M3Cmd M3Glob M3Ctx := { node := mach3Node }

/-- The machine `Mach3::new(i)` returns: `State1{counter:0}` and the machine
context `{id: i}` (the `State1` enter hook only prints). -/
def mach3New (i : Int) : Machine M3Tag M3Glob M3Ctx :=
  { state := States.st ⟨M3Tag.State1, M3Cont.mk 0⟩, context := M3Glob.mk i }

/-! ## A machine using the callback-without-target clause

The `@inner command` arm at lib.rs 183-190 (`cmd {code} =>;`) runs the
callback and returns `__SameState__`.  None of the four test machines uses
it, so this minimal single-state machine instantiates that clause shape as a
concrete input for the same-state claims: one state `A{n:i16}`, machine
context `{k:i16}`, one command `Tick` whose callback increments both. -/

inductive WTag where
  | A : WTag
deriving DecidableEq

inductive WCmd where
  | Tick : WCmd
deriving DecidableEq

structure WCtx where
  n : Int
deriving DecidableEq

structure WGlob where
  k : Int
deriving DecidableEq

def WCtxF : WTag → Type := fun _ => WCtx

def witNode : (t : WTag) → StateNode WTag WCmd WGlob WCtxF t
  | WTag.A =>
    { enter := mkHook idBody
      leave := mkHook idBody
      react := fun _ =>
        some (Reaction.cbStay
          (fun c g => (WCtx.mk (c.n + 1), WGlob.mk (g.k + 1)))) }

def witDef : MachineDef WTag WCmd WGlob WCtxF := { node := witNode }

def witStart : Machine WTag WGlob WCtxF :=
  { state := States.st ⟨WTag.A, WCtx.mk 0⟩, context := WGlob.mk 0 }

/-! ## Claims -/

/-- C1: for every machine and every command that has no handler in the
current state, `execute` returns the invalid-command error (`Err(())`), runs
no callback and no hook (the event list is empty), and returns the machine
unchanged: same state tag, same state context, same machine-wide context. -/
theorem c1_invalid_command_no_effect {M : MachineDef Tag Cmd Glob Ctx}
    {m : Machine Tag Glob Ctx} {cmd : Cmd} {t : Tag} {c : Ctx t}
    (hstate : m.state = States.st ⟨t, c⟩)
    (hre : (M.node t).react cmd = none) :
    execute M m cmd = some (m, RRes.err, []) :=
  execute_invalid hstate hre

/-- Witness for C1: in `Mach1`'s state `New`, the command `Drop` has no
handler; `execute` rejects it and leaves the machine untouched. -/
theorem c1_witness :
    execute mach1Def mach1Start M1Cmd.Drop = some (mach1Start, RRes.err, []) :=
  c1_invalid_command_no_effect rfl rfl

/-- C2: every transitioning `execute` call — whether the handler carries a
callback (lib.rs 174-181) or not (lib.rs 193-199) — runs, in order: the
handler's callback (if any) on the outgoing context, then the outgoing
state's leave hook exactly once, then the target state's context is built by
the initializer expressions from the contexts as mutated by the callback and
leave hook (`next c2 g2`), then the controller swaps the stored state, and
only then the new state's enter hook runs exactly once (its mutations land
in the stored machine). -/
theorem c2_transition_order {M : MachineDef Tag Cmd Glob Ctx}
    {m : Machine Tag Glob Ctx} {cmd : Cmd} {t : Tag} {c : Ctx t}
    (hstate : m.state = States.st ⟨t, c⟩) :
    (∀ (cb : Ctx t → Glob → Ctx t × Glob) (next : Ctx t → Glob → Sigma Ctx)
        (c1 c2 : Ctx t) (g1 g2 : Glob) (s2 : Sigma Ctx) (c4 : Ctx s2.1)
        (g3 : Glob),
      (M.node t).react cmd = some (Reaction.cbTarget cb next) →
      cb c m.context = (c1, g1) →
      (M.node t).leave c1 g1 = (c2, g2, RRes.ok) →
      next c2 g2 = s2 →
      (M.node s2.1).enter s2.2 g2 = (c4, g3, RRes.ok) →
      execute M m cmd =
        some ({ state := States.st ⟨s2.1, c4⟩, context := g3 }, RRes.ok,
          [Event.callback t cmd, Event.leave t, Event.enter s2.1])) ∧
    (∀ (next : Ctx t → Glob → Sigma Ctx) (c2 : Ctx t) (g2 : Glob)
        (s2 : Sigma Ctx) (c4 : Ctx s2.1) (g3 : Glob),
      (M.node t).react cmd = some (Reaction.target next) →
      (M.node t).leave c m.context = (c2, g2, RRes.ok) →
      next c2 g2 = s2 →
      (M.node s2.1).enter s2.2 g2 = (c4, g3, RRes.ok) →
      execute M m cmd =
        some ({ state := States.st ⟨s2.1, c4⟩, context := g3 }, RRes.ok,
          [Event.leave t, Event.enter s2.1])) := by
  constructor
  · intro cb next c1 c2 g1 g2 s2 c4 g3 hre hcb hlv hnext henter
    exact execute_cbTarget hstate hre hcb hlv hnext henter
  · intro next c2 g2 s2 c4 g3 hre hlv hnext henter
    exact execute_target hstate hre hlv hnext henter

/-- Witness for C2, both transition shapes: `Mach1` in `New{x:0}` on
`Configure` (callback, then leave of `New`, then `InConfig{x:1,y:0}` built,
then enter of `InConfig`), and the no-callback `Mach3` `State1: ToState2 =>
State2{counter: cont.counter}` from `State1{counter:0}` (leave increments
counter to 1, and the initializer observes that mutation: `State2` starts
with `counter = 1`). -/
theorem c2_witness :
    execute mach1Def mach1Start M1Cmd.Configure =
      some ({ state := States.st ⟨M1Tag.InConfig, M1InConfig.mk 1 0⟩,
              context := M1Glob.mk }, RRes.ok,
        [Event.callback M1Tag.New M1Cmd.Configure, Event.leave M1Tag.New,
         Event.enter M1Tag.InConfig]) ∧
    execute mach3Def (mach3New 0) M3Cmd.ToState2 =
      some ({ state := States.st ⟨M3Tag.State2, M3Cont.mk 1⟩,
              context := M3Glob.mk 0 }, RRes.ok,
        [Event.leave M3Tag.State1, Event.enter M3Tag.State2]) :=
  ⟨(c2_transition_order
      (rfl : mach1Start.state = States.st ⟨M1Tag.New, M1New.mk 0⟩)).1
      _ _ _ _ _ _ _ _ _ rfl rfl rfl rfl rfl,
   (c2_transition_order
      (rfl : (mach3New 0).state = States.st ⟨M3Tag.State1, M3Cont.mk 0⟩)).2
      _ _ _ _ _ _ rfl rfl rfl rfl⟩

/-- `Mach1` sitting in `New{x:5}` (to make context replacement visible). -/
def mach1New5 : Machine M1Tag M1Glob M1Ctx :=
  { state := States.st ⟨M1Tag.New, M1New.mk 5⟩, context := M1Glob.mk }

/-- C3: a handler whose declared target equals the current state is a full
transition — with or without a callback, the leave hook and the enter hook
of that very state both fire, and the state's context is fully replaced by
the values the target initializers compute; only a handler that declares no
target at all takes the no-hook same-state path (see C4). -/
theorem c3_self_transition_full {M : MachineDef Tag Cmd Glob Ctx}
    {m : Machine Tag Glob Ctx} {cmd : Cmd} {t : Tag} {c : Ctx t}
    (hstate : m.state = States.st ⟨t, c⟩) :
    (∀ (cb : Ctx t → Glob → Ctx t × Glob) (next : Ctx t → Glob → Sigma Ctx)
        (c1 c2 : Ctx t) (g1 g2 : Glob) (c3 c4 : Ctx t) (g3 : Glob),
      (M.node t).react cmd = some (Reaction.cbTarget cb next) →
      cb c m.context = (c1, g1) →
      (M.node t).leave c1 g1 = (c2, g2, RRes.ok) →
      next c2 g2 = ⟨t, c3⟩ →
      (M.node t).enter c3 g2 = (c4, g3, RRes.ok) →
      execute M m cmd =
        some ({ state := States.st ⟨t, c4⟩, context := g3 }, RRes.ok,
          [Event.callback t cmd, Event.leave t, Event.enter t])) ∧
    (∀ (next : Ctx t → Glob → Sigma Ctx) (c2 : Ctx t) (g2 : Glob)
        (c3 c4 : Ctx t) (g3 : Glob),
      (M.node t).react cmd = some (Reaction.target next) →
      (M.node t).leave c m.context = (c2, g2, RRes.ok) →
      next c2 g2 = ⟨t, c3⟩ →
      (M.node t).enter c3 g2 = (c4, g3, RRes.ok) →
      execute M m cmd =
        some ({ state := States.st ⟨t, c4⟩, context := g3 }, RRes.ok,
          [Event.leave t, Event.enter t])) := by
  constructor
  · intro cb next c1 c2 g1 g2 c3 c4 g3 hre hcb hlv hnext henter
    exact execute_cbTarget hstate hre hcb hlv hnext henter
  · intro next c2 g2 c3 c4 g3 hre hlv hnext henter
    exact execute_target hstate hre hlv hnext henter

/-- Witness for C3: `Mach1`'s handler `New: ConfigureDone => New{x:0}` is a
self-transition; from `New{x:5}` both hooks of `New` fire and the context is
replaced by `{x:0}`. -/
theorem c3_witness :
    execute mach1Def mach1New5 M1Cmd.ConfigureDone =
      some ({ state := States.st ⟨M1Tag.New, M1New.mk 0⟩, context := M1Glob.mk },
        RRes.ok, [Event.leave M1Tag.New, Event.enter M1Tag.New]) :=
  (c3_self_transition_full rfl).2 _ _ _ _ _ _ rfl rfl rfl rfl

/-- C4: a handler that declares no target state runs its callback (if any)
on the current state context and the machine context, fires no leave hook
and no enter hook, keeps the state tag, leaves the context as the callback
left it, and `execute` returns `Ok(())`. -/
theorem c4_no_target_same_state {M : MachineDef Tag Cmd Glob Ctx}
    {m : Machine Tag Glob Ctx} {cmd : Cmd} {t : Tag} {c : Ctx t}
    (hstate : m.state = States.st ⟨t, c⟩) :
    (∀ (cb : Ctx t → Glob → Ctx t × Glob) (c1 : Ctx t) (g1 : Glob),
      (M.node t).react cmd = some (Reaction.cbStay cb) →
      cb c m.context = (c1, g1) →
      execute M m cmd =
        some ({ state := States.st ⟨t, c1⟩, context := g1 }, RRes.ok,
          [Event.callback t cmd])) ∧
    ((M.node t).react cmd = some Reaction.stay →
      execute M m cmd = some (m, RRes.ok, [])) := by
  constructor
  · intro cb c1 g1 hre hcb
    exact execute_cbStay hstate hre hcb
  · intro hre
    exact execute_stay hstate hre

/-- Witness for C4: `Mach1`'s `Operational: ConfigureDone =>;` leaves the
machine untouched with success and no events; the one-state machine's
`Tick {..} =>;` clause runs only the callback, whose mutations stay. -/
theorem c4_witness :
    execute mach1Def mach1Oper M1Cmd.ConfigureDone =
      some (mach1Oper, RRes.ok, []) ∧
    execute witDef witStart WCmd.Tick =
      some ({ state := States.st ⟨WTag.A, WCtx.mk 1⟩, context := WGlob.mk 1 },
        RRes.ok, [Event.callback WTag.A WCmd.Tick]) :=
  ⟨(c4_no_target_same_state
      (rfl : mach1Oper.state =
        States.st ⟨M1Tag.Operational, M1Operational.mk⟩)).2 rfl,
   (c4_no_target_same_state
      (rfl : witStart.state = States.st ⟨WTag.A, WCtx.mk 0⟩)).1 _ _ _ rfl rfl⟩

/-- C5: construction builds the machine context once and the initial state
context from the declared values, runs the initial state's enter hook
exactly once (and no leave hook: the event list is exactly one enter), and
stores the enter hook's mutations of both contexts in the machine, whose
current state is the initial state. -/
theorem c5_construction {M : MachineDef Tag Cmd Glob Ctx} {t0 : Tag}
    {c0 c1 : Ctx t0} {g0 g1 : Glob}
    (henter : (M.node t0).enter c0 g0 = (c1, g1, RRes.ok)) :
    new M t0 c0 g0 =
      some ({ state := States.st ⟨t0, c1⟩, context := g1 },
        ([Event.enter t0] : List (Event Tag Cmd))) := by
  simp only [new, henter]

/-- Witness for C5: `Mach3::new(7)` enters `State1` once and stores
`State1{counter:0}` and `{id:7}`. -/
theorem c5_witness :
    new mach3Def M3Tag.State1 (M3Cont.mk 0) (M3Glob.mk 7) =
      some (mach3New 7, [Event.enter M3Tag.State1]) :=
  c5_construction rfl

/-- C9: on `Mach1`, starting from construction at `New{x:0}`, the Scenario A
command sequence `[Configure, ConfigureDone, Drop, Configure, ConfigureDone,
ConfigureDone, ConfigureDone]` returns `Ok(())` on every call and ends in
state `Operational{}`. -/
theorem c9_scenarioA :
    new mach1Def M1Tag.New (M1New.mk 0) M1Glob.mk =
      some (mach1Start, [Event.enter M1Tag.New]) ∧
    runOk mach1Def mach1Start scenarioA = some mach1Oper :=
  ⟨rfl, rfl⟩

/-- C6: the sentinel `__SameState__` is never exposed as the current state:
for a machine obtained from `new` and after any sequence of `execute` calls,
the `state()` accessor returns a real declared state variant. -/
theorem c6_sentinel_never_current {M : MachineDef Tag Cmd Glob Ctx}
    {t0 : Tag} {c0 : Ctx t0} {g0 : Glob} {m0 mF : Machine Tag Glob Ctx}
    {ev0 : List (Event Tag Cmd)} {cmds : List Cmd}
    (hnew : new M t0 c0 g0 = some (m0, ev0))
    (hrun : execSeq M m0 cmds = some mF) :
    stateOf mF ≠ States.sameState := by
  obtain ⟨s0, hs0⟩ := new_st_shape hnew
  obtain ⟨s2, hs2⟩ := execSeq_st_shape hs0 hrun
  simp [stateOf, hs2]

/-- Witness for C6: `Mach1` built by `new`, run through a valid command, a
rejected command and another valid one, never reports the sentinel. -/
theorem c6_witness : stateOf mach1Oper ≠ States.sameState :=
  c6_sentinel_never_current
    (rfl : new mach1Def M1Tag.New (M1New.mk 0) M1Glob.mk =
      some (mach1Start, [Event.enter M1Tag.New]))
    (rfl : execSeq mach1Def mach1Start
      [M1Cmd.Configure, M1Cmd.Drop, M1Cmd.ConfigureDone] = some mach1Oper)

/-- C8: two independently constructed instances of one machine definition
are fully disjoint: running any command script entirely on the first
instance leaves the second instance's current state and machine-wide
context (as reported by its accessors) unchanged. -/
theorem c8_instance_independence {M : MachineDef Tag Cmd Glob Ctx}
    {t0 t1 : Tag} {c0 : Ctx t0} {c1 : Ctx t1} {g0 g1 : Glob}
    {ev0 ev1 : List (Event Tag Cmd)}
    {w w' : Machine Tag Glob Ctx × Machine Tag Glob Ctx}
    {script : List (Bool × Cmd)}
    (_h0 : new M t0 c0 g0 = some (w.1, ev0))
    (_h1 : new M t1 c1 g1 = some (w.2, ev1))
    (hall : ∀ p ∈ script, p.1 = true)
    (hrun : runPair M w script = some w') :
    stateOf w'.2 = stateOf w.2 ∧
      get_inner_context w'.2 = get_inner_context w.2 := by
  have h := runPair_fst_only hall hrun
  rw [stateOf, stateOf, get_inner_context, get_inner_context, h]
  exact ⟨rfl, rfl⟩

/-- The two `Mach3` instances of `test3`, constructed with ids 0 and 1. -/
def mach3Pair : Machine M3Tag M3Glob M3Ctx × Machine M3Tag M3Glob M3Ctx :=
  (mach3New 0, mach3New 1)

/-- A script running two transitions, all on the first instance. -/
def mach3Script : List (Bool × M3Cmd) :=
  [(true, M3Cmd.ToState2), (true, M3Cmd.ToState3)]

/-- The pair after the script: instance 0 moved to `State3{counter:2}`
(each leave hook incremented the counter), instance 1 untouched. -/
def mach3PairEnd : Machine M3Tag M3Glob M3Ctx × Machine M3Tag M3Glob M3Ctx :=
  ({ state := States.st ⟨M3Tag.State3, M3Cont.mk 2⟩, context := M3Glob.mk 0 },
   mach3New 1)

/-- Witness for C8: after running the script on instance 0, instance 1
still reports `State1{counter:0}` and `{id:1}`. -/
theorem c8_witness :
    stateOf mach3PairEnd.2 = stateOf mach3Pair.2 ∧
    get_inner_context mach3PairEnd.2 = get_inner_context mach3Pair.2 :=
  c8_instance_independence
    (rfl : new mach3Def M3Tag.State1 (M3Cont.mk 0) (M3Glob.mk 0) =
      some (mach3Pair.1, [Event.enter M3Tag.State1]))
    (rfl : new mach3Def M3Tag.State1 (M3Cont.mk 0) (M3Glob.mk 1) =
      some (mach3Pair.2, [Event.enter M3Tag.State1]))
    (by decide)
    (rfl : runPair mach3Def mach3Pair mach3Script = some mach3PairEnd)

theorem do_job_ne_none {M : MachineDef Tag Cmd Glob Ctx}
    (hlv : ∀ (t : Tag) (c : Ctx t) (g : Glob),
      ((M.node t).leave c g).2.2 = RRes.ok)
    (t : Tag) (ctx : Ctx t) (cmd : Cmd) (glob : Glob) :
    do_job M t ctx cmd glob ≠ none := by
  rcases hre : (M.node t).react cmd with - | r
  · simp [do_job_none hre]
  · rcases r with ⟨cb, next⟩ | ⟨cb⟩ | ⟨next⟩ | -
    · rcases hcb : cb ctx glob with ⟨c1, g1⟩
      rcases hl : (M.node t).leave c1 g1 with ⟨c2, g2, r2⟩
      have h2 := hlv t c1 g1
      rw [hl] at h2
      simp only at h2
      subst h2
      simp [do_job_cbTarget hre hcb hl]
    · rcases hcb : cb ctx glob with ⟨c1, g1⟩
      simp [do_job_cbStay hre hcb]
    · rcases hl : (M.node t).leave ctx glob with ⟨c2, g2, r2⟩
      have h2 := hlv t ctx glob
      rw [hl] at h2
      simp only at h2
      subst h2
      simp [do_job_target hre hl]
    · simp [do_job_stay hre]

theorem change_state_ne_none {M : MachineDef Tag Cmd Glob Ctx}
    (hen : ∀ (t : Tag) (c : Ctx t) (g : Glob),
      ((M.node t).enter c g).2.2 = RRes.ok)
    (m : Machine Tag Glob Ctx) (s : Sigma Ctx) :
    change_state M m (States.st s) ≠ none := by
  obtain ⟨st0, g0⟩ := m
  rcases he : (M.node s.1).enter s.2 g0 with ⟨c1, g1, r⟩
  have h2 := hen s.1 s.2 g0
  rw [he] at h2
  simp only at h2
  subst h2
  simp [change_state_st he]

/-- C10: every generated enter and leave hook returns `Ok(())` (they are
all built by the `@inner >>` / `@inner <<` arms, which end in `Ok(())`), so
none of the `.unwrap()` calls — on the leave hook inside `do_job`, on the
enter hook inside `change_state`, and on the enter hook inside `new` —
panics: `new` and `execute` always return normally. -/
theorem c10_hooks_never_panic {M : MachineDef Tag Cmd Glob Ctx}
    (hM : M.generatedHooks) :
    (∀ (t : Tag) (c : Ctx t) (g : Glob),
      ((M.node t).enter c g).2.2 = RRes.ok ∧
      ((M.node t).leave c g).2.2 = RRes.ok) ∧
    (∀ (t0 : Tag) (c0 : Ctx t0) (g0 : Glob), new M t0 c0 g0 ≠ none) ∧
    (∀ (m : Machine Tag Glob Ctx) (cmd : Cmd), execute M m cmd ≠ none) := by
  have hok : ∀ (t : Tag) (c : Ctx t) (g : Glob),
      ((M.node t).enter c g).2.2 = RRes.ok ∧
      ((M.node t).leave c g).2.2 = RRes.ok := by
    intro t c g
    obtain ⟨⟨be, hbe⟩, ⟨bl, hbl⟩⟩ := hM t
    rw [hbe, hbl]
    exact ⟨rfl, rfl⟩
  refine ⟨hok, ?_, ?_⟩
  · intro t0 c0 g0
    rcases he : (M.node t0).enter c0 g0 with ⟨c1, g1, r⟩
    have h2 := (hok t0 c0 g0).1
    rw [he] at h2
    simp only at h2
    subst h2
    simp [new, he]
  · intro m cmd
    obtain ⟨st0, g0⟩ := m
    rcases st0 with - | s
    · simp [execute]
    · simp only [execute]
      rcases hd : do_job M s.1 s.2 cmd g0 with - | ⟨c', g', res, ev⟩
      · exact absurd hd (do_job_ne_none (fun t c g => (hok t c g).2) s.1 s.2 cmd g0)
      · rcases res with - | res2
        · simp
        · rcases res2 with - | s2
          · simp
          · rcases hcs : change_state M
                { state := States.st ⟨s.1, c'⟩, context := g' }
                (States.st s2) with - | p
            · exact absurd hcs
                (change_state_ne_none (fun t c g => (hok t c g).1) _ s2)
            · simp [hcs]

/-- All of `Mach1`'s hooks come from the generator's hook arms. -/
theorem mach1_generatedHooks : mach1Def.generatedHooks := by
  intro t
  cases t <;> exact ⟨⟨idBody, rfl⟩, ⟨idBody, rfl⟩⟩

/-- Witness for C10: on `Mach1`, `new` and an `execute` both return
normally (no `.unwrap()` panic). -/
theorem c10_witness :
    new mach1Def M1Tag.New (M1New.mk 0) M1Glob.mk ≠ none ∧
    execute mach1Def mach1Start M1Cmd.Configure ≠ none :=
  ⟨(c10_hooks_never_panic mach1_generatedHooks).2.1 M1Tag.New (M1New.mk 0)
      M1Glob.mk,
   (c10_hooks_never_panic mach1_generatedHooks).2.2 mach1Start M1Cmd.Configure⟩

/-- Counterexample for C7 as stated: `get_inner_context` is
`self.context.clone()` — a detached copy, not `&mut` access.  On a `Mach3`
instance built with `id = 0`, a caller who overwrites the copy's `id` with 5
holds `{id:5}`, while the machine's stored machine-wide context — what the
accessor reports, now and on every later call — is still `{id:0}`: the
claimed external mutation of the machine's shared context never reaches the
machine. -/
theorem c7_counterexample :
    get_inner_context (mach3New 0) = M3Glob.mk 0 ∧
    M3Glob.mk 5 ≠ get_inner_context (mach3New 0) := by
  constructor
  · rfl
  · decide

/-- C7 (amended): the shared-context accessor returns the machine's stored
machine-wide context by value (a clone) for inspection, with no side effect
on the machine; any caller-side update that actually changes the returned
copy yields a value that is not the machine's stored context, so external
mutation through the accessor's result never affects the machine. -/
theorem c7_accessor_clone {m : Machine Tag Glob Ctx} {f : Glob → Glob}
    (hf : f (get_inner_context m) ≠ get_inner_context m) :
    get_inner_context m = m.context ∧ f (get_inner_context m) ≠ m.context :=
  ⟨rfl, hf⟩

/-- A caller-side update of a copied `Mach3` machine context: set `id` to 5. -/
def setId5 : M3Glob → M3Glob := fun _ => M3Glob.mk 5

/-- Witness for C7 (amended): on `Mach3` with `id = 0`, overwriting the
copied context with `{id:5}` changes the copy but not the machine. -/
theorem c7_witness :
    get_inner_context (mach3New 0) = (mach3New 0).context ∧
    setId5 (get_inner_context (mach3New 0)) ≠ (mach3New 0).context :=
  c7_accessor_clone
    (by decide :
      setId5 (get_inner_context (mach3New 0)) ≠ get_inner_context (mach3New 0))
